import Mathlib

/-
  Verification of the run-config generator of the model_analyzer repository.

  The repository ships the test suite `tests/test_run_config_generator.py` and the
  QA helper `qa/L0_config_search/config_generator.py`.  The generator implementation
  itself (`model_analyzer/config/generate/run_config_generator.py`,
  `model_analyzer/config/generate/model_run_config_generator.py`,
  `model_analyzer/config/generate/generator_utils.py`) is not part of the sources
  available here, so those components are modelled from the specification and
  validated against the expected counts asserted by the test suite.
-/

set_option maxRecDepth 100000

namespace ModelAnalyzer

/-- Modelled from the spec: `GeneratorUtils.generate_doubled_list` from the missing
`model_analyzer/config/generate/generator_utils.py` — the doubling sequence
`start, start*2, start*4, …` while `≤ max`.  Fuel-based so that it is structurally
recursive (the fuel `maxv + 1` always suffices for `start ≥ 1`). -/
def generate_doubled_list_aux : Nat → Nat → Nat → List Nat
  | 0, _, _ => []
  | fuel + 1, start, maxv =>
    if start ≤ maxv then start :: generate_doubled_list_aux fuel (2 * start) maxv else []

/-- Modelled from the spec: the doubling sequence produced by the Sequence Builder
(`GeneratorUtils.generate_doubled_list`). -/
def generate_doubled_list (start maxv : Nat) : List Nat :=
  generate_doubled_list_aux (maxv + 1) start maxv

/-- Modelled from the spec: one Concrete Per-Model Config — one value drawn from each
axis `(instance_count, batch_size, concurrency)` plus the `is_default` marker for the
model's baseline (unmodified) configuration.  Explicit parameter-set variants are
folded into the `instance_count`/`batch_size` axes (each parameter combination is one
axis point), which is how the reference scenarios count them. -/
structure ModelRunConfig where
  is_default : Bool
  instance_count : Nat
  batch_size : Nat
  concurrency : Nat
deriving DecidableEq, Repr

/-- Modelled from the spec: a Model Search Spec — the per-model declarative
description of what to sweep, fully resolved (auto vs. manual already decided). -/
structure ModelSearchSpec where
  concurrencies : List Nat
  instance_counts : List Nat
  batch_sizes : List Nat
  default_instance_count : Nat
  default_batch_size : Nat
  server_env : List (String × String)
deriving DecidableEq, Repr

/-- A Run Config: an ordered sequence of Concrete Per-Model Configs, one per profiled
model, in declared model order. -/
abbrev RunConfig := List ModelRunConfig

/-- Result of running one (sub-)sweep: the list of yielded (partial) Run Configs, the
next experiment index, and the maximum throughput observed during the sweep's
measurement window. -/
abbrev SweepResult := List RunConfig × Nat × Nat

/-- Modelled from the spec: the early-backoff decision rule — stop advancing the
batch-size sub-axis when the current window's maximum throughput does not exceed the
best observed for a previous batch-size step (no previous step: never stop). -/
def should_stop (best : Option Nat) (wmax : Nat) : Bool :=
  match best with
  | none => false
  | some prev => decide (wmax ≤ prev)

/-- Modelled from the spec: the concurrency (inner) axis sweep of one model.  For each
concurrency value the nested child sub-sweep (`child`, one call per concurrency value,
threaded on the experiment index) runs to completion underneath it.  Returns the
yielded configs, the next experiment index and the window maximum. -/
def concurrency_sweep (child : Nat → SweepResult) (mk : Nat → ModelRunConfig) :
    List Nat → Nat → SweepResult
  | [], idx => ([], idx, 0)
  | c :: cs, idx =>
    let r1 := child idx
    let r2 := concurrency_sweep child mk cs r1.2.1
    (r1.1.map (fun t => mk c :: t) ++ r2.1, r2.2.1, max r1.2.2 r2.2.2)

/-- Modelled from the spec: the batch-size walk for one instance_count value.  After
each batch-size step's concurrency sweep, the maximum throughput of that step's
measurement window is compared against the best observed for any previous batch-size
step of the same instance_count; if it does not exceed it, the remaining (larger)
batch-size values are skipped (early backoff). -/
def batch_size_walk (child : Nat → SweepResult) (mk : Nat → Nat → ModelRunConfig)
    (concs : List Nat) : List Nat → Option Nat → Nat → SweepResult
  | [], _, idx => ([], idx, 0)
  | b :: bs, best, idx =>
    let r1 := concurrency_sweep child (mk b) concs idx
    if should_stop best r1.2.2 then r1
    else
      let r2 := batch_size_walk child mk concs bs (some r1.2.2) r1.2.1
      (r1.1 ++ r2.1, r2.2.1, max r1.2.2 r2.2.2)

/-- Modelled from the spec: the instance-count (outer) axis walk of one model's full
sweep.  Backoff state and "best observed" are tracked independently per
instance_count value (the batch-size walk restarts with no best). -/
def instance_count_walk (child : Nat → SweepResult)
    (mk : Nat → Nat → Nat → ModelRunConfig) (concs bss : List Nat) :
    List Nat → Nat → SweepResult
  | [], idx => ([], idx, 0)
  | ic :: ics, idx =>
    let r1 := batch_size_walk child (fun b c => mk ic b c) concs bss none idx
    let r2 := instance_count_walk child mk concs bss ics r1.2.1
    (r1.1 ++ r2.1, r2.2.1, max r1.2.2 r2.2.2)

/-- Modelled from the spec: the full-sweep phase of the nested multi-model pipeline.
The first model is the root level; advancing it by one value causes a complete
re-iteration of every nested child level underneath it.  A complete Run Config (all
models chosen) constitutes one experiment: it consumes one throughput value `thru i`
from the measurement feedback, and each nesting level aggregates the maximum over its
child's entire sub-sweep window for its own backoff decision. -/
def full_sweep (thru : Nat → Nat) : List ModelSearchSpec → Nat → SweepResult
  | [], idx => ([[]], idx + 1, thru idx)
  | m :: rest, idx =>
    instance_count_walk (fun i => full_sweep thru rest i)
      (fun ic bs c => ⟨false, ic, bs, c⟩)
      m.concurrencies m.batch_sizes m.instance_counts idx

/-- Modelled from the spec: the default phase — while every model is in its own
default-config pass, the combined sequence is the nested cartesian product of each
model's default-pass concurrency axis, every model held at its default
(unmodified) model config. -/
def default_sweep (thru : Nat → Nat) : List ModelSearchSpec → Nat → SweepResult
  | [], idx => ([[]], idx + 1, thru idx)
  | m :: rest, idx =>
    concurrency_sweep (fun i => default_sweep thru rest i)
      (fun c => ⟨true, m.default_instance_count, m.default_batch_size, c⟩)
      m.concurrencies idx

/-- Modelled from the spec: the full sequence of Run Configs yielded over one
profiling session — the default phase followed by the full phase, with the
measurement feedback for experiment `i` given by `thru i`. -/
def generate_run_configs (thru : Nat → Nat) (models : List ModelSearchSpec) :
    List RunConfig :=
  (default_sweep thru models 0).1 ++
    (full_sweep thru models (default_sweep thru models 0).2.1).1

/-- Modelled from the spec: the server environments declared by the profiled models
(models with an empty environment declare none). -/
def declared_environments (models : List ModelSearchSpec) :
    List (List (String × String)) :=
  (models.filter (fun m => !m.server_env.isEmpty)).map (fun m => m.server_env)

/-- Modelled from the spec: the eager cross-model consistency check — every declared
`server_environment` must be identical key-for-key. -/
def environments_match (models : List ModelSearchSpec) : Bool :=
  match declared_environments models with
  | [] => true
  | e :: es => es.all (fun e2 => decide (e2 = e))

/-- Modelled from the spec: the root Run Config Generator.  Construction validates the
cross-model server-environment constraint eagerly: on mismatch it fails with the
configuration-conflict error before any Run Config is yielded; otherwise the whole
session's sequence of Run Configs is produced. -/
def run_config_generator (thru : Nat → Nat) (models : List ModelSearchSpec) :
    Except String (List RunConfig) :=
  if environments_match models then .ok (generate_run_configs thru models)
  else .error "ConfigurationConflictError: mismatching triton server environments"

/-- An auto-search Model Search Spec with bounds `max_concurrency = C`,
`max_instance_count = I`, `max_batch_size = B`: doubling concurrency and batch-size
axes, linear instance-count axis, the default (baseline) model config taken from the
model's original configuration (`instance count 1`, `max_batch_size 8` in the
reference scenarios). -/
def auto_spec (C I B : Nat) : ModelSearchSpec :=
  { concurrencies := generate_doubled_list 1 C
    instance_counts := List.range' 1 I
    batch_sizes := generate_doubled_list 1 B
    default_instance_count := 1
    default_batch_size := 8
    server_env := [] }

/-- A strictly increasing throughput feedback (each experiment better than every
earlier one): never triggers early backoff. -/
def thru_id : Nat → Nat := fun i => i

/-- Throughput feedback of the leaf-backoff scenario: the two measurements of the leaf
model's second batch-size step of its first sub-sweep (experiments 6 and 7) show no
improvement over the maximum of its first step (experiment 5); everything else keeps
strictly increasing. -/
def thru_leaf_backoff : Nat → Nat := fun i => if i = 6 ∨ i = 7 then 5 else i

/-- Throughput feedback of the root-backoff scenario: the root model's second
batch-size window (experiments 36–67, the child's entire sub-sweeps under the root's
`batch_size = 2` step) replays the values of its first window, so its maximum does not
exceed the first window's maximum. -/
def thru_root_backoff : Nat → Nat := fun i => if 36 ≤ i ∧ i < 68 then i - 36 else i

/-- Throughput feedback of the measurement-list scenario: strictly increasing except
that the final measurement of the root's second batch-size window (experiment 67) dips
to 1 — the window's maximum (66) still exceeds the previous window's maximum (35), so
a correct implementation must not back off. -/
def thru_meas_list : Nat → Nat := fun i => if i = 67 then 1 else i

/-- The two-identical-model scenario of the early-backoff and measurement-list tests:
both models auto search with `max_concurrency = 2`, `max_instance_count = 2`,
`max_batch_size = 8`. -/
def specs_2x8 : List ModelSearchSpec := [auto_spec 2 2 8, auto_spec 2 2 8]

/-- Model A of the mixed two-model sweep: auto search with the explicit concurrency
list `[1, 2, 3]`, auto instance counts `1..2` and auto batch sizes `1, 2`. -/
def spec_uneven_a : ModelSearchSpec :=
  { concurrencies := [1, 2, 3]
    instance_counts := List.range' 1 2
    batch_sizes := generate_doubled_list 1 2
    default_instance_count := 1
    default_batch_size := 8
    server_env := [] }

/-- Model B of the mixed two-model sweep: manual search with explicit
`max_batch_size = [1, 4, 16]` and `instance_group count = [1, 2]`, auto concurrency
axis `1, 2`. -/
def spec_uneven_b : ModelSearchSpec :=
  { concurrencies := generate_doubled_list 1 2
    instance_counts := [1, 2]
    batch_sizes := [1, 4, 16]
    default_instance_count := 1
    default_batch_size := 8
    server_env := [] }

/-- A manual-search spec with a duplicated concurrency value in its explicit list. -/
def dup_concurrency_spec : ModelSearchSpec :=
  { concurrencies := [1, 1]
    instance_counts := [1]
    batch_sizes := [1]
    default_instance_count := 1
    default_batch_size := 8
    server_env := [] }

/-- The first declared server environment of the environment tests. -/
def env1 : List (String × String) :=
  [("LD_PRELOAD", "fake_preload_1"), ("LD_LIBRARY_PATH", "fake_library_path_1")]

/-- The second (mismatching) declared server environment of the environment tests. -/
def env2 : List (String × String) :=
  [("LD_PRELOAD", "fake_preload_2"), ("LD_LIBRARY_PATH", "fake_library_path_2")]

/-- An auto-search spec (`max_concurrency = max_instance_count = max_batch_size = 2`)
declaring the given triton server environment. -/
def env_spec (e : List (String × String)) : ModelSearchSpec :=
  { auto_spec 2 2 2 with server_env := e }

/-- The model-config (MC) variant of one Concrete Per-Model Config: its
`(is_default, instance_count, batch_size)` part, i.e. everything except the
concurrency setting. -/
def model_config_of (c : ModelRunConfig) : Bool × Nat × Nat :=
  (c.is_default, c.instance_count, c.batch_size)

/-- The generated model-config combinations of one model: every combination of
instance_count and batch_size (parameter-set variants being folded into these axes),
instance_count varying slowest. -/
def model_config_combinations (m : ModelSearchSpec) : List (Bool × Nat × Nat) :=
  (m.instance_counts.map (fun ic => m.batch_sizes.map (fun bs => (false, ic, bs)))).flatten

/-- The model-config axis of one model's complete per-model sequence: the synthetic
default entry (the model's baseline, unmodified config) first, followed by every
generated combination. -/
def model_config_axis (m : ModelSearchSpec) : List (Bool × Nat × Nat) :=
  (true, m.default_instance_count, m.default_batch_size) :: model_config_combinations m

/-- In the leaf-backoff scenario, the combined Run Configs skipped by the leaf model's
early backoff: root model at its first full-sweep config `(ic 1, bs 1, concurrency 1)`
and leaf model at `instance_count 1` with one of the two remaining larger batch sizes
(4 or 8), at any concurrency. -/
def leaf_skipped (rc : RunConfig) : Bool :=
  match rc with
  | [a, b] =>
    decide (a = ⟨false, 1, 1, 1⟩) && !b.is_default && decide (b.instance_count = 1) &&
      (decide (b.batch_size = 4) || decide (b.batch_size = 8))
  | _ => false

/-- In the root-backoff scenario, the combined Run Configs skipped by the root model's
early backoff: every config whose root-model slot is a full-sweep config with
`instance_count 1` and one of the two remaining larger batch sizes (4 or 8) — each
skipped root value drops its whole concurrency axis and the leaf model's entire
sub-sweep underneath. -/
def root_skipped (rc : RunConfig) : Bool :=
  match rc with
  | a :: _ =>
    !a.is_default && decide (a.instance_count = 1) &&
      (decide (a.batch_size = 4) || decide (a.batch_size = 8))
  | _ => false

/-- The per-model full-sweep size `num_PAC * num_MC-combinations` of each model,
multiplied over all models: the size of the full phase when no backoff triggers. -/
def full_size (models : List ModelSearchSpec) : Nat :=
  models.foldr
    (fun m acc =>
      m.instance_counts.length * (m.batch_sizes.length * (m.concurrencies.length * acc)))
    1

/-- The product of the per-model default-pass concurrency-axis sizes `num_PAC`: the
size of the default phase. -/
def default_size (models : List ModelSearchSpec) : Nat :=
  models.foldr (fun m acc => m.concurrencies.length * acc) 1

/-- The maximum of `thru` over the half-open experiment range `[a, b)` (0 when the
range is empty): the measurement window of one backoff decision. -/
def range_max (thru : Nat → Nat) (a b : Nat) : Nat :=
  ((List.range' a (b - a)).map thru).foldr max 0

/-- A nested child sub-sweep is well-behaved when it always makes progress on the
experiment index and reports as its window maximum exactly the maximum throughput over
the contiguous range of experiments it consumed. -/
def child_inv (thru : Nat → Nat) (child : Nat → SweepResult) : Prop :=
  ∀ i, i < (child i).2.1 ∧ (child i).2.2 = range_max thru i (child i).2.1

/-- Every per-model axis list is non-empty (an invariant of Model Search Specs). -/
def nonempty_axes (m : ModelSearchSpec) : Prop :=
  m.concurrencies ≠ [] ∧ m.instance_counts ≠ [] ∧ m.batch_sizes ≠ []

end ModelAnalyzer

namespace L0ConfigSearch

/-- One `instance_group` entry of a model-config parameter sweep
(`{'count': [...], 'kind': ...}`), from `qa/L0_config_search/config_generator.py`. -/
structure InstanceGroup where
  count : List Nat
  kind : String
deriving DecidableEq, Repr

/-- The `model_config_parameters` mapping of one model entry. -/
structure ModelConfigParameters where
  instance_group : List InstanceGroup
deriving DecidableEq, Repr

/-- The per-model settings mapping of one model entry: the optional
`parameters: {concurrency: [...]}` list and the optional `model_config_parameters`. -/
structure ModelSettings where
  parameters_concurrency : Option (List Nat)
  model_config_parameters : Option ModelConfigParameters
deriving DecidableEq, Repr

/-- The `model_names` value of one sweep configuration: either a plain list of model
names or a mapping from model name to its settings. -/
inductive ModelNames where
  | plain : List String → ModelNames
  | withSettings : List (String × ModelSettings) → ModelNames
deriving DecidableEq, Repr

/-- One sweep-configuration dictionary built by `_get_sweep_configs` in
`qa/L0_config_search/config_generator.py`: the optional search-bound keys, the
optional `run_config_search_disable` and `concurrency` keys, the `model_names` value,
and the four expected-count keys (always set before the dictionary is appended). -/
structure SweepConfig where
  run_config_search_max_concurrency : Option Nat
  run_config_search_max_instance_count : Option Nat
  run_config_search_max_preferred_batch_size : Option Nat
  run_config_search_disable : Option Bool
  concurrency : Option (List Nat)
  model_names : ModelNames
  total_param : Nat
  total_param_remote : Nat
  total_models : Nat
  total_models_remote : Nat
deriving DecidableEq, Repr

/-- The settings of `classification_chestxray_v1` carrying only the
`instance_group count [1,2] kind KIND_GPU` model-config parameters. -/
def chestxray_instance_group_settings : ModelSettings :=
  { parameters_concurrency := none
    model_config_parameters := some { instance_group := [{ count := [1, 2], kind := "KIND_GPU" }] } }

/-- The settings of `classification_chestxray_v1` carrying only the explicit
`concurrency [1]` parameter. -/
def chestxray_concurrency_settings : ModelSettings :=
  { parameters_concurrency := some [1]
    model_config_parameters := none }

/-- The settings of `classification_chestxray_v1` carrying both the explicit
`concurrency [1]` parameter and the `instance_group count [1,2]` sweep. -/
def chestxray_both_settings : ModelSettings :=
  { parameters_concurrency := some [1]
    model_config_parameters := some { instance_group := [{ count := [1, 2], kind := "KIND_GPU" }] } }

/-- `_get_sweep_configs` of `qa/L0_config_search/config_generator.py`: the fixed list
of 8 sweep-configuration dictionaries, in construction order, each with its four
expected-count values. -/
def _get_sweep_configs : List SweepConfig :=
  [ { run_config_search_max_concurrency := some 2
      run_config_search_max_instance_count := some 2
      run_config_search_max_preferred_batch_size := some 2
      run_config_search_disable := none
      concurrency := none
      model_names := .withSettings [("classification_chestxray_v1", chestxray_instance_group_settings)]
      total_param := 4
      total_param_remote := 2
      total_models := 2
      total_models_remote := 1 },
    { run_config_search_max_concurrency := none
      run_config_search_max_instance_count := none
      run_config_search_max_preferred_batch_size := none
      run_config_search_disable := some true
      concurrency := none
      model_names := .plain ["classification_chestxray_v1"]
      total_param := 1
      total_param_remote := 1
      total_models := 1
      total_models_remote := 1 },
    { run_config_search_max_concurrency := some 2
      run_config_search_max_instance_count := some 2
      run_config_search_max_preferred_batch_size := some 2
      run_config_search_disable := none
      concurrency := none
      model_names := .plain ["classification_chestxray_v1"]
      total_param := 16
      total_param_remote := 2
      total_models := 8
      total_models_remote := 1 },
    { run_config_search_max_concurrency := some 2
      run_config_search_max_instance_count := some 2
      run_config_search_max_preferred_batch_size := some 1
      run_config_search_disable := none
      concurrency := none
      model_names := .withSettings [("classification_chestxray_v1", chestxray_concurrency_settings)]
      total_param := 6
      total_param_remote := 1
      total_models := 6
      total_models_remote := 1 },
    { run_config_search_max_concurrency := some 2
      run_config_search_max_instance_count := some 2
      run_config_search_max_preferred_batch_size := some 2
      run_config_search_disable := none
      concurrency := none
      model_names := .withSettings [("classification_chestxray_v1", chestxray_both_settings)]
      total_param := 2
      total_param_remote := 1
      total_models := 2
      total_models_remote := 1 },
    { run_config_search_max_concurrency := none
      run_config_search_max_instance_count := none
      run_config_search_max_preferred_batch_size := none
      run_config_search_disable := some true
      concurrency := none
      model_names := .withSettings [("classification_chestxray_v1", chestxray_concurrency_settings)]
      total_param := 1
      total_param_remote := 1
      total_models := 1
      total_models_remote := 1 },
    { run_config_search_max_concurrency := none
      run_config_search_max_instance_count := none
      run_config_search_max_preferred_batch_size := none
      run_config_search_disable := some true
      concurrency := some [1]
      model_names := .withSettings [("classification_chestxray_v1", chestxray_instance_group_settings)]
      total_param := 2
      total_param_remote := 1
      total_models := 2
      total_models_remote := 1 },
    { run_config_search_max_concurrency := none
      run_config_search_max_instance_count := none
      run_config_search_max_preferred_batch_size := none
      run_config_search_disable := some true
      concurrency := none
      model_names := .withSettings [("classification_chestxray_v1", chestxray_instance_group_settings)]
      total_param := 2
      total_param_remote := 1
      total_models := 2
      total_models_remote := 1 } ]

/-- `get_all_configurations` of `qa/L0_config_search/config_generator.py`: starts from
the empty list and appends the sweep configurations. -/
def get_all_configurations : List SweepConfig :=
  [] ++ _get_sweep_configs

end L0ConfigSearch

namespace ModelAnalyzer

/-- C5: for two identical auto-search models with `max_concurrency = 2`,
`max_instance_count = 2`, `max_model_batch_size = 2` and no backoff-triggering
feedback, the generator yields exactly 68 Run Configs: a default phase of 4 (the
product of the per-model default-pass concurrency axes) followed by a full phase of
64 (the product of the per-model full-sweep sizes). -/
theorem two_identical_models_yield_68 :
    (default_sweep thru_id [auto_spec 2 2 2, auto_spec 2 2 2] 0).1.length = 4 ∧
    (full_sweep thru_id [auto_spec 2 2 2, auto_spec 2 2 2]
      (default_sweep thru_id [auto_spec 2 2 2, auto_spec 2 2 2] 0).2.1).1.length = 64 ∧
    (generate_run_configs thru_id [auto_spec 2 2 2, auto_spec 2 2 2]).length = 68 := by
  refine ⟨by decide, by decide, by decide⟩

/-- C6: for the mixed two-model sweep — model A auto search with the explicit
concurrency list `[1,2,3]`, model B manual search with `max_batch_size = [1,4,16]` and
`instance_group count = [1,2]` — and no backoff-triggering feedback, the generator
yields exactly 150 Run Configs (a default phase of 6 and a full phase of 144). -/
theorem mixed_two_model_sweep_yields_150 :
    (default_sweep thru_id [spec_uneven_a, spec_uneven_b] 0).1.length = 6 ∧
    (full_sweep thru_id [spec_uneven_a, spec_uneven_b]
      (default_sweep thru_id [spec_uneven_a, spec_uneven_b] 0).2.1).1.length = 144 ∧
    (generate_run_configs thru_id [spec_uneven_a, spec_uneven_b]).length = 150 := by
  refine ⟨by decide, by decide, by decide⟩

/-- C2: at the root decision point, early backoff compares the maximum throughput over
the child's entire sub-sweep window, not only the final measurement.  In the
measurement-list scenario the final measurement of the root's second batch-size window
dips to 1 while a later-than-best value (66) within the same window exceeds the
previous window's maximum (35): the root does not back off and the session equals the
never-backoff session (260 configs).  In the root-backoff scenario the whole second
window fails to exceed the first window's maximum: the root skips its remaining larger
batch sizes (and each skipped root value drops its concurrency axis and the leaf
model's whole sub-sweep), leaving 196 configs. -/
theorem root_backoff_uses_window_maximum :
    generate_run_configs thru_meas_list specs_2x8 = generate_run_configs thru_id specs_2x8 ∧
    (generate_run_configs thru_meas_list specs_2x8).length = 260 ∧
    generate_run_configs thru_root_backoff specs_2x8 =
      (generate_run_configs thru_id specs_2x8).filter (fun rc => !(root_skipped rc)) ∧
    (generate_run_configs thru_root_backoff specs_2x8).length = 196 := by
  refine ⟨by decide, by decide, by decide, by decide⟩

/-- C3: when, for one instance_count of the leaf model, the maximum throughput of the
current batch-size step does not exceed the best of the previous step, the leaf skips
the remaining larger batch sizes for that instance_count while continuing normally on
the instance_count and concurrency axes: the session is exactly the never-backoff
session minus the skipped batch_size × concurrency combinations (2 batch sizes × 2
concurrencies, under the one root config whose sub-sweep triggered the backoff),
shrinking the total from 260 to 256. -/
theorem leaf_backoff_skips_remaining_batch_sizes :
    (generate_run_configs thru_id specs_2x8).length = 260 ∧
    generate_run_configs thru_leaf_backoff specs_2x8 =
      (generate_run_configs thru_id specs_2x8).filter (fun rc => !(leaf_skipped rc)) ∧
    ((generate_run_configs thru_id specs_2x8).filter (fun rc => leaf_skipped rc)).length = 4 ∧
    (generate_run_configs thru_leaf_backoff specs_2x8).length = 256 := by
  refine ⟨by decide, by decide, by decide, by decide⟩

/-- C1 (counterexample): with a Model Search Spec whose explicit concurrency list
repeats a value, the yielded sequence of Run Configs contains a duplicate, so the
generator does not avoid duplicates for every collection of specs. -/
theorem dup_axis_values_break_nodup :
    ¬ (generate_run_configs thru_id [dup_concurrency_spec]).Nodup := by
  decide

/-- Every config yielded by a concurrency sweep is one child config extended by one
entry of the swept model. -/
theorem concurrency_sweep_mem_length {child : Nat → SweepResult} {mk : Nat → ModelRunConfig}
    {n : Nat} (hchild : ∀ i x, x ∈ (child i).1 → x.length = n) (cs : List Nat) :
    ∀ (idx : Nat) (x : RunConfig),
      x ∈ (concurrency_sweep child mk cs idx).1 → x.length = n + 1 := by
  induction cs with
  | nil => intro idx x hx; simp [concurrency_sweep] at hx
  | cons c cs ih =>
    intro idx x hx
    simp only [concurrency_sweep, List.mem_append, List.mem_map] at hx
    rcases hx with ⟨t, ht, rfl⟩ | hx
    · simp [hchild _ _ ht]
    · exact ih _ x hx

/-- Every config yielded by a batch-size walk is one child config extended by one
entry of the swept model. -/
theorem batch_size_walk_mem_length {child : Nat → SweepResult}
    {mk : Nat → Nat → ModelRunConfig} {concs : List Nat} {n : Nat}
    (hchild : ∀ i x, x ∈ (child i).1 → x.length = n) (bss : List Nat) :
    ∀ (best : Option Nat) (idx : Nat) (x : RunConfig),
      x ∈ (batch_size_walk child mk concs bss best idx).1 → x.length = n + 1 := by
  induction bss with
  | nil => intro best idx x hx; simp [batch_size_walk] at hx
  | cons b bs ih =>
    intro best idx x hx
    simp only [batch_size_walk] at hx
    split at hx
    · exact concurrency_sweep_mem_length hchild concs idx x hx
    · rcases List.mem_append.1 hx with hx | hx
      · exact concurrency_sweep_mem_length hchild concs idx x hx
      · exact ih _ _ x hx

/-- Every config yielded by an instance-count walk is one child config extended by one
entry of the swept model. -/
theorem instance_count_walk_mem_length {child : Nat → SweepResult}
    {mk : Nat → Nat → Nat → ModelRunConfig} {concs bss : List Nat} {n : Nat}
    (hchild : ∀ i x, x ∈ (child i).1 → x.length = n) (ics : List Nat) :
    ∀ (idx : Nat) (x : RunConfig),
      x ∈ (instance_count_walk child mk concs bss ics idx).1 → x.length = n + 1 := by
  induction ics with
  | nil => intro idx x hx; simp [instance_count_walk] at hx
  | cons ic ics ih =>
    intro idx x hx
    simp only [instance_count_walk, List.mem_append] at hx
    rcases hx with hx | hx
    · exact batch_size_walk_mem_length hchild bss none idx x hx
    · exact ih _ x hx

/-- Every partial config produced by the full-sweep phase over a model suffix has one
entry per model of the suffix. -/
theorem full_sweep_mem_length (thru : Nat → Nat) (models : List ModelSearchSpec) :
    ∀ (idx : Nat) (x : RunConfig),
      x ∈ (full_sweep thru models idx).1 → x.length = models.length := by
  induction models with
  | nil =>
    intro idx x hx
    simp only [full_sweep, List.mem_singleton] at hx
    simp [hx]
  | cons m rest ih =>
    intro idx x hx
    exact instance_count_walk_mem_length (fun i y hy => ih i y hy) m.instance_counts idx x hx

/-- Every partial config produced by the default phase over a model suffix has one
entry per model of the suffix. -/
theorem default_sweep_mem_length (thru : Nat → Nat) (models : List ModelSearchSpec) :
    ∀ (idx : Nat) (x : RunConfig),
      x ∈ (default_sweep thru models idx).1 → x.length = models.length := by
  induction models with
  | nil =>
    intro idx x hx
    simp only [default_sweep, List.mem_singleton] at hx
    simp [hx]
  | cons m rest ih =>
    intro idx x hx
    exact concurrency_sweep_mem_length (fun i y hy => ih i y hy) m.concurrencies idx x hx

/-- C9: every Run Config yielded over a profiling session contains exactly one
per-model sub-config for each profiled model (slot k being produced by the k-th
declared model's generator, in declared order), for every collection of specs and
every measurement feedback. -/
theorem run_config_entries_match_models (thru : Nat → Nat) (models : List ModelSearchSpec) :
    ∀ rc ∈ generate_run_configs thru models, rc.length = models.length := by
  intro rc hrc
  rcases List.mem_append.1 hrc with h | h
  · exact default_sweep_mem_length thru models 0 rc h
  · exact full_sweep_mem_length thru models _ rc h

/-- Witness for C9: the first yielded Run Config of a concrete single-model session is
in the session and has exactly one per-model entry. -/
theorem run_config_entries_match_models_witness :
    [ModelRunConfig.mk true 1 8 1] ∈ generate_run_configs thru_id [auto_spec 2 2 2] ∧
    ([ModelRunConfig.mk true 1 8 1] : RunConfig).length = 1 :=
  ⟨by decide,
   run_config_entries_match_models thru_id [auto_spec 2 2 2]
     [ModelRunConfig.mk true 1 8 1] (by decide)⟩

/-- C8: for two models that both declare a server environment, construction of the Run
Config Generator succeeds and proceeds normally when the declared environments are
identical, and fails eagerly with the configuration-conflict error — before any Run
Config is yielded — when they are not. -/
theorem server_environment_check (thru : Nat → Nat) (m1 m2 : ModelSearchSpec)
    (h1 : m1.server_env ≠ []) (h2 : m2.server_env ≠ []) :
    (m1.server_env = m2.server_env →
      run_config_generator thru [m1, m2] = .ok (generate_run_configs thru [m1, m2])) ∧
    (m1.server_env ≠ m2.server_env →
      run_config_generator thru [m1, m2] =
        .error "ConfigurationConflictError: mismatching triton server environments") := by
  have e1 : m1.server_env.isEmpty = false := by
    cases hse : m1.server_env with
    | nil => exact absurd hse h1
    | cons a l => rfl
  have e2 : m2.server_env.isEmpty = false := by
    cases hse : m2.server_env with
    | nil => exact absurd hse h2
    | cons a l => rfl
  have hfilter : declared_environments [m1, m2] = [m1.server_env, m2.server_env] := by
    simp [declared_environments, List.filter, e1, e2]
  have hmatch : environments_match [m1, m2] = decide (m2.server_env = m1.server_env) := by
    simp [environments_match, hfilter]
  constructor
  · intro heq
    have ht : environments_match [m1, m2] = true := by simp [hmatch, heq]
    simp [run_config_generator, ht]
  · intro hne
    have hf : environments_match [m1, m2] = false := by
      simp only [hmatch, decide_eq_false_iff_not]
      exact fun h => hne h.symm
    simp [run_config_generator, hf]

/-- Witness for C8: with the concrete environments of the reference scenarios,
matching environments produce the full 68-config session and mismatching environments
produce the conflict error. -/
theorem server_environment_check_witness :
    run_config_generator thru_id [env_spec env1, env_spec env1] =
      .ok (generate_run_configs thru_id [env_spec env1, env_spec env1]) ∧
    run_config_generator thru_id [env_spec env1, env_spec env2] =
      .error "ConfigurationConflictError: mismatching triton server environments" ∧
    (generate_run_configs thru_id [env_spec env1, env_spec env1]).length = 68 :=
  ⟨(server_environment_check thru_id (env_spec env1) (env_spec env1)
      (by decide) (by decide)).1 rfl,
   (server_environment_check thru_id (env_spec env1) (env_spec env2)
      (by decide) (by decide)).2 (by decide),
   by decide⟩

/-- Shape of the configs yielded by a concurrency sweep: head made from a swept
concurrency value, tail a child config. -/
theorem concurrency_sweep_mem_shape {child : Nat → SweepResult} {mk : Nat → ModelRunConfig}
    (cs : List Nat) :
    ∀ (idx : Nat) (x : RunConfig), x ∈ (concurrency_sweep child mk cs idx).1 →
      ∃ c ∈ cs, ∃ t, x = mk c :: t := by
  induction cs with
  | nil => intro idx x hx; simp [concurrency_sweep] at hx
  | cons c cs ih =>
    intro idx x hx
    simp only [concurrency_sweep, List.mem_append, List.mem_map] at hx
    rcases hx with ⟨t, _, rfl⟩ | hx
    · exact ⟨c, List.mem_cons_self c cs, t, rfl⟩
    · rcases ih _ x hx with ⟨c', hc', t, rfl⟩
      exact ⟨c', List.mem_cons_of_mem _ hc', t, rfl⟩

/-- Shape of the configs yielded by a batch-size walk. -/
theorem batch_size_walk_mem_shape {child : Nat → SweepResult}
    {mk : Nat → Nat → ModelRunConfig} {concs : List Nat} (bss : List Nat) :
    ∀ (best : Option Nat) (idx : Nat) (x : RunConfig),
      x ∈ (batch_size_walk child mk concs bss best idx).1 →
      ∃ b ∈ bss, ∃ c ∈ concs, ∃ t, x = mk b c :: t := by
  induction bss with
  | nil => intro best idx x hx; simp [batch_size_walk] at hx
  | cons b bs ih =>
    intro best idx x hx
    simp only [batch_size_walk] at hx
    have hconc : x ∈ (concurrency_sweep child (fun c => mk b c) concs idx).1 →
        ∃ b' ∈ b :: bs, ∃ c ∈ concs, ∃ t, x = mk b' c :: t := by
      intro hx'
      rcases concurrency_sweep_mem_shape concs idx x hx' with ⟨c, hc, t, rfl⟩
      exact ⟨b, List.mem_cons_self b bs, c, hc, t, rfl⟩
    split at hx
    · exact hconc hx
    · rcases List.mem_append.1 hx with hx | hx
      · exact hconc hx
      · rcases ih _ _ x hx with ⟨b', hb', c, hc, t, rfl⟩
        exact ⟨b', List.mem_cons_of_mem _ hb', c, hc, t, rfl⟩

/-- Shape of the configs yielded by an instance-count walk. -/
theorem instance_count_walk_mem_shape {child : Nat → SweepResult}
    {mk : Nat → Nat → Nat → ModelRunConfig} {concs bss : List Nat} (ics : List Nat) :
    ∀ (idx : Nat) (x : RunConfig), x ∈ (instance_count_walk child mk concs bss ics idx).1 →
      ∃ a ∈ ics, ∃ b ∈ bss, ∃ c ∈ concs, ∃ t, x = mk a b c :: t := by
  induction ics with
  | nil => intro idx x hx; simp [instance_count_walk] at hx
  | cons ic ics ih =>
    intro idx x hx
    simp only [instance_count_walk, List.mem_append] at hx
    rcases hx with hx | hx
    · rcases batch_size_walk_mem_shape bss none idx x hx with ⟨b, hb, c, hc, t, rfl⟩
      exact ⟨ic, List.mem_cons_self ic ics, b, hb, c, hc, t, rfl⟩
    · rcases ih _ x hx with ⟨a, ha, b, hb, c, hc, t, rfl⟩
      exact ⟨a, List.mem_cons_of_mem _ ha, b, hb, c, hc, t, rfl⟩

/-- A concurrency sweep over duplicate-free concurrency values, with duplicate-free
child sub-sweeps and an injective per-value constructor, yields no duplicates. -/
theorem concurrency_sweep_nodup {child : Nat → SweepResult} {mk : Nat → ModelRunConfig}
    (hchild : ∀ i, (child i).1.Nodup)
    (hmk : ∀ c c', mk c = mk c' → c = c') (cs : List Nat) :
    ∀ idx, cs.Nodup → (concurrency_sweep child mk cs idx).1.Nodup := by
  induction cs with
  | nil => intro idx _; simp [concurrency_sweep]
  | cons c cs ih =>
    intro idx hcs
    rw [List.nodup_cons] at hcs
    simp only [concurrency_sweep]
    refine List.Nodup.append ((hchild idx).map (fun t t' h => (List.cons_eq_cons.1 h).2))
      (ih _ hcs.2) ?_
    intro x hx1 hx2
    simp only [List.mem_map] at hx1
    rcases hx1 with ⟨t, _, rfl⟩
    rcases concurrency_sweep_mem_shape cs _ _ hx2 with ⟨c', hc', t', heq⟩
    exact hcs.1 (hmk c c' (List.cons_eq_cons.1 heq).1 ▸ hc')

/-- A batch-size walk over duplicate-free batch sizes and concurrencies yields no
duplicates, whatever backoff decisions the measurements induce. -/
theorem batch_size_walk_nodup {child : Nat → SweepResult}
    {mk : Nat → Nat → ModelRunConfig} {concs : List Nat}
    (hchild : ∀ i, (child i).1.Nodup)
    (hmk : ∀ b c b' c', mk b c = mk b' c' → b = b' ∧ c = c')
    (hconcs : concs.Nodup) (bss : List Nat) :
    ∀ best idx, bss.Nodup → (batch_size_walk child mk concs bss best idx).1.Nodup := by
  induction bss with
  | nil => intro best idx _; simp [batch_size_walk]
  | cons b bs ih =>
    intro best idx hbss
    rw [List.nodup_cons] at hbss
    simp only [batch_size_walk]
    have h1 : (concurrency_sweep child (fun c => mk b c) concs idx).1.Nodup :=
      concurrency_sweep_nodup hchild (fun c c' h => (hmk b c b c' h).2) concs idx hconcs
    split
    · exact h1
    · refine List.Nodup.append h1 (ih _ _ hbss.2) ?_
      intro x hx1 hx2
      rcases concurrency_sweep_mem_shape concs idx x hx1 with ⟨c, _, t, rfl⟩
      rcases batch_size_walk_mem_shape bs _ _ _ hx2 with ⟨b', hb', c', _, t', heq⟩
      exact hbss.1 ((hmk b c b' c' (List.cons_eq_cons.1 heq).1).1 ▸ hb')

/-- An instance-count walk over duplicate-free axes yields no duplicates, whatever
backoff decisions the measurements induce. -/
theorem instance_count_walk_nodup {child : Nat → SweepResult}
    {mk : Nat → Nat → Nat → ModelRunConfig} {concs bss : List Nat}
    (hchild : ∀ i, (child i).1.Nodup)
    (hmk : ∀ a b c a' b' c', mk a b c = mk a' b' c' → a = a' ∧ b = b' ∧ c = c')
    (hconcs : concs.Nodup) (hbss : bss.Nodup) (ics : List Nat) :
    ∀ idx, ics.Nodup → (instance_count_walk child mk concs bss ics idx).1.Nodup := by
  induction ics with
  | nil => intro idx _; simp [instance_count_walk]
  | cons ic ics ih =>
    intro idx hics
    rw [List.nodup_cons] at hics
    simp only [instance_count_walk]
    refine List.Nodup.append
      (batch_size_walk_nodup hchild (fun b c b' c' h => (hmk ic b c ic b' c' h).2)
        hconcs bss none idx hbss)
      (ih _ hics.2) ?_
    intro x hx1 hx2
    rcases batch_size_walk_mem_shape bss none idx x hx1 with ⟨b, _, c, _, t, rfl⟩
    rcases instance_count_walk_mem_shape ics _ _ hx2 with ⟨a', ha', b', _, c', _, t', heq⟩
    exact hics.1 ((hmk ic b c a' b' c' (List.cons_eq_cons.1 heq).1).1 ▸ ha')

/-- The full-sweep phase over models with duplicate-free axis lists yields no
duplicate partial configs, whatever backoff decisions the measurements induce. -/
theorem full_sweep_nodup (thru : Nat → Nat) (models : List ModelSearchSpec)
    (h : ∀ m ∈ models,
      m.concurrencies.Nodup ∧ m.instance_counts.Nodup ∧ m.batch_sizes.Nodup) :
    ∀ idx, (full_sweep thru models idx).1.Nodup := by
  induction models with
  | nil => intro idx; simp [full_sweep]
  | cons m rest ih =>
    intro idx
    have hm := h m (List.mem_cons_self m rest)
    have hrest := fun m' hm' => h m' (List.mem_cons_of_mem m hm')
    simp only [full_sweep]
    refine instance_count_walk_nodup (fun i => ih hrest i) ?_ hm.1 hm.2.2
      m.instance_counts idx hm.2.1
    intro a b c a' b' c' heq
    exact ⟨congrArg ModelRunConfig.instance_count heq,
      congrArg ModelRunConfig.batch_size heq, congrArg ModelRunConfig.concurrency heq⟩

/-- The default phase over models with duplicate-free concurrency lists yields no
duplicate partial configs. -/
theorem default_sweep_nodup (thru : Nat → Nat) (models : List ModelSearchSpec)
    (h : ∀ m ∈ models, m.concurrencies.Nodup) :
    ∀ idx, (default_sweep thru models idx).1.Nodup := by
  induction models with
  | nil => intro idx; simp [default_sweep]
  | cons m rest ih =>
    intro idx
    have hm := h m (List.mem_cons_self m rest)
    have hrest := fun m' hm' => h m' (List.mem_cons_of_mem m hm')
    simp only [default_sweep]
    refine concurrency_sweep_nodup (fun i => ih hrest i) ?_ m.concurrencies idx hm
    intro c c' heq
    exact congrArg ModelRunConfig.concurrency heq

/-- C1 (amended): for every nonempty collection of Model Search Specs whose per-model
axis lists are duplicate-free (as the auto doubling and linear sequences always are),
the full sequence of Run Configs yielded over a profiling session contains no
duplicates — no two yielded Run Configs are structurally equal — for every measurement
feedback. -/
theorem generated_run_configs_nodup (thru : Nat → Nat) (models : List ModelSearchSpec)
    (hne : models ≠ [])
    (h : ∀ m ∈ models,
      m.concurrencies.Nodup ∧ m.instance_counts.Nodup ∧ m.batch_sizes.Nodup) :
    (generate_run_configs thru models).Nodup := by
  match models, hne with
  | m :: rest, _ =>
    refine List.Nodup.append
      (default_sweep_nodup thru (m :: rest) (fun m' hm' => (h m' hm').1) 0)
      (full_sweep_nodup thru (m :: rest) h _) ?_
    intro x hx1 hx2
    rcases concurrency_sweep_mem_shape m.concurrencies _ _ hx1 with ⟨c, _, t, rfl⟩
    rcases instance_count_walk_mem_shape m.instance_counts _ _ hx2
      with ⟨a, _, b, _, c', _, t', heq⟩
    simpa using (List.cons_eq_cons.1 heq).1

/-- Witness for C1 (amended): a concrete nonempty auto-search collection with
duplicate-free axes yields a duplicate-free session. -/
theorem generated_run_configs_nodup_witness :
    [auto_spec 2 2 2] ≠ ([] : List ModelSearchSpec) ∧
    (generate_run_configs thru_id [auto_spec 2 2 2]).Nodup :=
  ⟨by decide, generated_run_configs_nodup thru_id [auto_spec 2 2 2] (by decide) (by decide)⟩

/-- Folding `max` with an arbitrary initial value equals taking `max` with the fold
from zero. -/
theorem foldr_max_init (l : List Nat) : ∀ c : Nat, l.foldr max c = max (l.foldr max 0) c := by
  induction l with
  | nil => intro c; simp
  | cons a l ih =>
    intro c
    simp only [List.foldr_cons, ih c]
    rw [Nat.max_assoc]

theorem range_max_empty (thru : Nat → Nat) (a : Nat) : range_max thru a a = 0 := by
  simp [range_max]

/-- Window maxima over adjacent experiment ranges combine. -/
theorem range_max_append (thru : Nat → Nat) {a b c : Nat} (hab : a ≤ b) (hbc : b ≤ c) :
    max (range_max thru a b) (range_max thru b c) = range_max thru a c := by
  unfold range_max
  have h1 : a + 1 * (b - a) = b := by omega
  have h2 : (c - b) + (b - a) = c - a := by omega
  have hsplit : List.range' a (c - a) = List.range' a (b - a) ++ List.range' b (c - b) := by
    rw [← h2, ← List.range'_append, h1]
  rw [hsplit, List.map_append, List.foldr_append]
  exact (foldr_max_init (List.map thru (List.range' a (b - a)))
    (List.foldr max 0 (List.map thru (List.range' b (c - b))))).symm

theorem le_foldr_max {x : Nat} {l : List Nat} (h : x ∈ l) : x ≤ l.foldr max 0 := by
  induction l with
  | nil => simp at h
  | cons a l ih =>
    rcases List.mem_cons.1 h with rfl | h
    · exact Nat.le_max_left _ _
    · exact le_trans (ih h) (Nat.le_max_right _ _)

/-- Every measurement inside a window is bounded by the window maximum. -/
theorem le_range_max (thru : Nat → Nat) {a i b : Nat} (hai : a ≤ i) (hib : i < b) :
    thru i ≤ range_max thru a b := by
  unfold range_max
  have hmem : i ∈ List.range' a (b - a) := by
    rw [List.mem_range'_1]
    exact ⟨hai, by omega⟩
  exact le_foldr_max (List.mem_map_of_mem thru hmem)

theorem foldr_max_lt {c : Nat} (hc : 0 < c) :
    ∀ {l : List Nat}, (∀ x ∈ l, x < c) → l.foldr max 0 < c := by
  intro l
  induction l with
  | nil => intro _; simpa using hc
  | cons a l ih =>
    intro h
    simp only [List.foldr_cons]
    exact Nat.max_lt.2 ⟨h a (List.mem_cons_self a l),
      ih (fun x hx => h x (List.mem_cons_of_mem a hx))⟩

/-- A window of measurements that are all below a bound has its maximum below it. -/
theorem range_max_lt (thru : Nat → Nat) {a b c : Nat} (hc : 0 < c)
    (h : ∀ i, a ≤ i → i < b → thru i < c) : range_max thru a b < c := by
  unfold range_max
  refine foldr_max_lt hc ?_
  intro x hx
  rcases List.mem_map.1 hx with ⟨i, hi, rfl⟩
  rw [List.mem_range'_1] at hi
  exact h i hi.1 (by omega)

/-- A concurrency sweep consumes a contiguous experiment range and reports its
maximum as the window maximum; it makes progress when the axis is non-empty. -/
theorem concurrency_sweep_inv {thru : Nat → Nat} {child : Nat → SweepResult}
    {mk : Nat → ModelRunConfig} (hc : child_inv thru child) (cs : List Nat) :
    ∀ idx,
      idx ≤ (concurrency_sweep child mk cs idx).2.1 ∧
      (concurrency_sweep child mk cs idx).2.2 =
        range_max thru idx (concurrency_sweep child mk cs idx).2.1 ∧
      (cs ≠ [] → idx < (concurrency_sweep child mk cs idx).2.1) := by
  induction cs with
  | nil => intro idx; exact ⟨le_refl idx, (range_max_empty thru idx).symm, by simp⟩
  | cons c cs ih =>
    intro idx
    simp only [concurrency_sweep]
    obtain ⟨h1, h2⟩ := hc idx
    obtain ⟨h3, h4, -⟩ := ih (child idx).2.1
    exact ⟨by omega, by rw [h2, h4, range_max_append thru (le_of_lt h1) h3],
      fun _ => by omega⟩

/-- A batch-size walk consumes a contiguous experiment range and reports its maximum
as the window maximum, whatever backoff decisions occur; it makes progress when both
axes are non-empty. -/
theorem batch_size_walk_inv {thru : Nat → Nat} {child : Nat → SweepResult}
    {mk : Nat → Nat → ModelRunConfig} {concs : List Nat}
    (hc : child_inv thru child) (bss : List Nat) :
    ∀ (best : Option Nat) (idx : Nat),
      idx ≤ (batch_size_walk child mk concs bss best idx).2.1 ∧
      (batch_size_walk child mk concs bss best idx).2.2 =
        range_max thru idx (batch_size_walk child mk concs bss best idx).2.1 ∧
      (bss ≠ [] → concs ≠ [] →
        idx < (batch_size_walk child mk concs bss best idx).2.1) := by
  induction bss with
  | nil => intro best idx; exact ⟨le_refl idx, (range_max_empty thru idx).symm, by simp⟩
  | cons b bs ih =>
    intro best idx
    simp only [batch_size_walk]
    obtain ⟨h1, h2, h5⟩ := concurrency_sweep_inv hc concs idx
    split
    · exact ⟨h1, h2, fun _ hcs => h5 hcs⟩
    · obtain ⟨h3, h4, -⟩ :=
        ih (some ((concurrency_sweep child (mk b) concs idx).2.2))
          ((concurrency_sweep child (mk b) concs idx).2.1)
      refine ⟨le_trans h1 h3, ?_, fun _ hcs => lt_of_lt_of_le (h5 hcs) h3⟩
      rw [← range_max_append thru h1 h3]
      exact congrArg₂ max h2 h4

/-- An instance-count walk consumes a contiguous experiment range and reports its
maximum as the window maximum; it makes progress when all axes are non-empty. -/
theorem instance_count_walk_inv {thru : Nat → Nat} {child : Nat → SweepResult}
    {mk : Nat → Nat → Nat → ModelRunConfig} {concs bss : List Nat}
    (hc : child_inv thru child) (ics : List Nat) :
    ∀ idx,
      idx ≤ (instance_count_walk child mk concs bss ics idx).2.1 ∧
      (instance_count_walk child mk concs bss ics idx).2.2 =
        range_max thru idx (instance_count_walk child mk concs bss ics idx).2.1 ∧
      (ics ≠ [] → bss ≠ [] → concs ≠ [] →
        idx < (instance_count_walk child mk concs bss ics idx).2.1) := by
  induction ics with
  | nil => intro idx; exact ⟨le_refl idx, (range_max_empty thru idx).symm, by simp⟩
  | cons ic ics ih =>
    intro idx
    simp only [instance_count_walk]
    obtain ⟨h1, h2, h5⟩ := batch_size_walk_inv hc bss none idx
    obtain ⟨h3, h4, -⟩ := ih (batch_size_walk child (fun b c => mk ic b c) concs bss none idx).2.1
    exact ⟨le_trans h1 h3, by rw [h2, h4, range_max_append thru h1 h3],
      fun _ hbss hcs => lt_of_lt_of_le (h5 hbss hcs) h3⟩

/-- The full-sweep phase over models with non-empty axes is a well-behaved child
sub-sweep: it consumes at least one experiment and reports the maximum over the
contiguous range it consumed. -/
theorem full_sweep_inv (thru : Nat → Nat) (models : List ModelSearchSpec)
    (h : ∀ m ∈ models, nonempty_axes m) :
    child_inv thru (fun i => full_sweep thru models i) := by
  induction models with
  | nil =>
    intro i
    simp only [full_sweep]
    refine ⟨by omega, ?_⟩
    unfold range_max
    have h1 : i + 1 - i = 1 := by omega
    rw [h1, List.range'_one]
    simp
  | cons m rest ih =>
    intro i
    have hm : nonempty_axes m := h m (List.mem_cons_self m rest)
    have hrest := fun m' hm' => h m' (List.mem_cons_of_mem m hm')
    simp only [full_sweep]
    obtain ⟨h1, h2, h3⟩ := instance_count_walk_inv (ih hrest) m.instance_counts i
    exact ⟨h3 hm.2.1 hm.2.2 hm.1, h2⟩

/-- A concurrency sweep over child sub-sweeps of constant size yields the full
product of the axis length and the child size. -/
theorem concurrency_sweep_length {child : Nat → SweepResult} {mk : Nat → ModelRunConfig}
    {L : Nat} (hL : ∀ i, (child i).1.length = L) (cs : List Nat) :
    ∀ idx, (concurrency_sweep child mk cs idx).1.length = cs.length * L := by
  induction cs with
  | nil => intro idx; simp [concurrency_sweep]
  | cons c cs ih =>
    intro idx
    simp only [concurrency_sweep, List.length_append, List.length_map, List.length_cons]
    rw [hL, ih]
    ring

/-- Under strictly increasing feedback, a batch-size walk whose running best (if any)
is the maximum over a range of earlier experiments never backs off: its window maximum
always contains a strictly later, hence strictly larger, measurement.  The walk then
yields the full product of its axes. -/
theorem batch_size_walk_no_backoff_length {thru : Nat → Nat} {child : Nat → SweepResult}
    {mk : Nat → Nat → ModelRunConfig} {concs : List Nat} {L : Nat}
    (hmono : StrictMono thru) (hc : child_inv thru child)
    (hL : ∀ i, (child i).1.length = L) (hconcs : concs ≠ []) (bss : List Nat) :
    ∀ (best : Option Nat) (idx : Nat),
      (best = none ∨ ∃ a, a < idx ∧ best = some (range_max thru a idx)) →
      (batch_size_walk child mk concs bss best idx).1.length =
        bss.length * (concs.length * L) := by
  induction bss with
  | nil => intro best idx _; simp [batch_size_walk]
  | cons b bs ih =>
    intro best idx hbest
    simp only [batch_size_walk]
    obtain ⟨h1, h2, h3⟩ := concurrency_sweep_inv hc concs idx
    have hprog : idx < (concurrency_sweep child (mk b) concs idx).2.1 := h3 hconcs
    have hnostop :
        should_stop best (concurrency_sweep child (mk b) concs idx).2.2 = false := by
      rcases hbest with rfl | ⟨a, ha, rfl⟩
      · rfl
      · simp only [should_stop, decide_eq_false_iff_not, not_le]
        have hpos : 0 < thru idx := by
          have := hmono ha
          omega
        have hlt : range_max thru a idx < thru idx :=
          range_max_lt thru hpos (fun j _ hj => hmono hj)
        have hle : thru idx ≤ (concurrency_sweep child (mk b) concs idx).2.2 := by
          rw [h2]
          exact le_range_max thru (le_refl idx) hprog
        omega
    rw [hnostop]
    simp only [Bool.false_eq_true, if_false, List.length_append, List.length_cons]
    rw [concurrency_sweep_length hL concs idx,
      ih (some ((concurrency_sweep child (mk b) concs idx).2.2))
        ((concurrency_sweep child (mk b) concs idx).2.1)
        (Or.inr ⟨idx, hprog, by rw [h2]⟩)]
    ring

/-- Under strictly increasing feedback, an instance-count walk yields the full product
of its axes (each per-instance-count batch-size walk starts with no best and never
backs off). -/
theorem instance_count_walk_no_backoff_length {thru : Nat → Nat}
    {child : Nat → SweepResult} {mk : Nat → Nat → Nat → ModelRunConfig}
    {concs bss : List Nat} {L : Nat}
    (hmono : StrictMono thru) (hc : child_inv thru child)
    (hL : ∀ i, (child i).1.length = L) (hconcs : concs ≠ []) (ics : List Nat) :
    ∀ idx, (instance_count_walk child mk concs bss ics idx).1.length =
      ics.length * (bss.length * (concs.length * L)) := by
  induction ics with
  | nil => intro idx; simp [instance_count_walk]
  | cons ic ics ih =>
    intro idx
    simp only [instance_count_walk, List.length_append, List.length_cons]
    rw [batch_size_walk_no_backoff_length hmono hc hL hconcs bss none idx (Or.inl rfl), ih]
    ring

/-- Under strictly increasing feedback (no backoff ever triggers) the full-sweep phase
yields the product, over the models, of each model's full-sweep size. -/
theorem full_sweep_no_backoff_length (thru : Nat → Nat) (hmono : StrictMono thru)
    (models : List ModelSearchSpec) (h : ∀ m ∈ models, nonempty_axes m) :
    ∀ idx, (full_sweep thru models idx).1.length = full_size models := by
  induction models with
  | nil => intro idx; simp [full_sweep, full_size]
  | cons m rest ih =>
    intro idx
    have hm : nonempty_axes m := h m (List.mem_cons_self m rest)
    have hrest := fun m' hm' => h m' (List.mem_cons_of_mem m hm')
    simp only [full_sweep, full_size, List.foldr_cons]
    rw [instance_count_walk_no_backoff_length hmono (full_sweep_inv thru rest hrest)
      (fun i => ih hrest i) hm.1 m.instance_counts idx]
    rfl

/-- The default phase always yields the product of the per-model concurrency-axis
sizes (no backoff occurs during the default phase). -/
theorem default_sweep_length (thru : Nat → Nat) (models : List ModelSearchSpec) :
    ∀ idx, (default_sweep thru models idx).1.length = default_size models := by
  induction models with
  | nil => intro idx; simp [default_sweep, default_size]
  | cons m rest ih =>
    intro idx
    simp only [default_sweep, default_size, List.foldr_cons]
    rw [concurrency_sweep_length (fun i => ih i) m.concurrencies idx]
    rfl

theorem generate_doubled_list_aux_nil {s n : Nat} (h : ¬ s ≤ n) :
    ∀ fuel, generate_doubled_list_aux fuel s n = [] := by
  intro fuel
  cases fuel with
  | zero => rfl
  | succ f => simp [generate_doubled_list_aux, h]

/-- With sufficient fuel, the doubling sequence from `s` up to `n` has
`⌊log2 (n / s)⌋ + 1` entries. -/
theorem generate_doubled_list_aux_length :
    ∀ (fuel s n : Nat), 1 ≤ s → s ≤ n → n < s * 2 ^ fuel →
      (generate_doubled_list_aux fuel s n).length = Nat.log2 (n / s) + 1 := by
  intro fuel
  induction fuel with
  | zero =>
    intro s n hs hsn hlt
    simp only [pow_zero, mul_one] at hlt
    omega
  | succ f ih =>
    intro s n hs hsn hlt
    simp only [generate_doubled_list_aux, if_pos hsn, List.length_cons]
    by_cases h2 : 2 * s ≤ n
    · rw [ih (2 * s) n (by omega) h2
        (by calc n < s * 2 ^ (f + 1) := hlt
              _ = (2 * s) * 2 ^ f := by ring)]
      have hdiv2 : 2 ≤ n / s := (Nat.le_div_iff_mul_le (by omega)).2 (by omega)
      have hlog : Nat.log2 (n / s) = Nat.log2 (n / s / 2) + 1 := by
        rw [Nat.log2_eq_log_two, Nat.log2_eq_log_two, Nat.log_div_base]
        have := Nat.log_pos (b := 2) (by omega) hdiv2
        omega
      have hdd : n / s / 2 = n / (2 * s) := by
        rw [Nat.div_div_eq_div_mul, Nat.mul_comm]
      rw [hlog, hdd]
    · rw [generate_doubled_list_aux_nil h2 f]
      have h1 : 1 ≤ n / s := (Nat.le_div_iff_mul_le (by omega)).2 (by omega)
      have hlt2 : n / s < 2 := (Nat.div_lt_iff_lt_mul (by omega)).2 (by omega)
      have hdiv1 : n / s = 1 := by omega
      rw [hdiv1]
      simp [Nat.log2_eq_log_two, Nat.log_one_right]

/-- The auto doubling sequence `1, 2, 4, … ≤ n` has `⌊log2 n⌋ + 1` entries. -/
theorem generate_doubled_list_length {n : Nat} (hn : 1 ≤ n) :
    (generate_doubled_list 1 n).length = Nat.log2 n + 1 := by
  have hfuel : n < 1 * 2 ^ (n + 1) := by
    rw [one_mul]
    have h2 : n < 2 ^ n := Nat.lt_two_pow n
    have h3 : (2 : Nat) ^ n ≤ 2 ^ (n + 1) := Nat.pow_le_pow_right (by omega) (by omega)
    omega
  have := generate_doubled_list_aux_length (n + 1) 1 n (le_refl 1) hn hfuel
  simpa [generate_doubled_list, Nat.div_one] using this

theorem generate_doubled_list_ne_nil {n : Nat} (hn : 1 ≤ n) :
    generate_doubled_list 1 n ≠ [] := by
  simp only [generate_doubled_list, generate_doubled_list_aux]
  simp [hn]

theorem range'_ne_nil {I : Nat} (hI : 1 ≤ I) : List.range' 1 I ≠ [] := by
  intro h
  have := congrArg List.length h
  simp at this
  omega

/-- C4: for a single auto-search model with bounds `max_concurrency = C`,
`max_instance_count = I`, `max_batch_size = B` (each at least 1) and throughput
feedback that never triggers backoff, the total number of Run Configs generated is
`(log2 C + 1) * (I * (log2 B + 1) + 1)`: the concurrency axis times the model-config
axis (every instance_count × batch_size combination plus the default entry walked in
the default pass). -/
theorem single_auto_model_count (C I B : Nat) (hC : 1 ≤ C) (hI : 1 ≤ I) (hB : 1 ≤ B) :
    (generate_run_configs thru_id [auto_spec C I B]).length =
      (Nat.log2 C + 1) * (I * (Nat.log2 B + 1) + 1) := by
  have hmono : StrictMono thru_id := fun a b h => h
  have hne : ∀ m ∈ [auto_spec C I B], nonempty_axes m := by
    intro m hm
    simp only [List.mem_singleton] at hm
    subst hm
    exact ⟨generate_doubled_list_ne_nil hC, range'_ne_nil hI,
      generate_doubled_list_ne_nil hB⟩
  rw [generate_run_configs, List.length_append,
    default_sweep_length thru_id [auto_spec C I B] 0,
    full_sweep_no_backoff_length thru_id hmono [auto_spec C I B] hne _]
  simp only [default_size, full_size, List.foldr_cons, List.foldr_nil, auto_spec]
  rw [generate_doubled_list_length hC, generate_doubled_list_length hB]
  have hIlen : (List.range' 1 I).length = I := by simp
  rw [hIlen]
  ring

/-- Witness for C4: at the concrete bounds `C = I = B = 2` of the reference scenarios,
the session has `(log2 2 + 1) * (2 * (log2 2 + 1) + 1) = 10` Run Configs. -/
theorem single_auto_model_count_witness :
    (1 ≤ 2 ∧ (generate_run_configs thru_id [auto_spec 2 2 2]).length =
      (Nat.log2 2 + 1) * (2 * (Nat.log2 2 + 1) + 1)) ∧
    (generate_run_configs thru_id [auto_spec 2 2 2]).length = 10 :=
  ⟨⟨by decide, single_auto_model_count 2 2 2 (by decide) (by decide) (by decide)⟩,
   by decide⟩

/-- Under strictly increasing feedback and a running best (if any) that is the maximum
over a range of earlier experiments, the backoff comparison never stops the walk: the
current window contains a strictly later, hence strictly larger, measurement. -/
theorem should_stop_false_of_strictMono {thru : Nat → Nat} {child : Nat → SweepResult}
    {mk : Nat → ModelRunConfig} {concs : List Nat}
    (hmono : StrictMono thru) (hc : child_inv thru child) (hconcs : concs ≠ [])
    {best : Option Nat} {idx : Nat}
    (hbest : best = none ∨ ∃ a, a < idx ∧ best = some (range_max thru a idx)) :
    should_stop best (concurrency_sweep child mk concs idx).2.2 = false := by
  obtain ⟨h1, h2, h3⟩ := concurrency_sweep_inv hc concs idx
  have hprog := h3 hconcs
  rcases hbest with rfl | ⟨a, ha, rfl⟩
  · rfl
  · simp only [should_stop, decide_eq_false_iff_not, not_le]
    have hpos : 0 < thru idx := by
      have := hmono ha
      omega
    have hlt : range_max thru a idx < thru idx :=
      range_max_lt thru hpos (fun j _ hj => hmono hj)
    have hle : thru idx ≤ (concurrency_sweep child mk concs idx).2.2 := by
      rw [h2]
      exact le_range_max thru (le_refl idx) hprog
    omega

/-- Over a leaf child (one empty partial config per experiment), a concurrency sweep
yields exactly one singleton config per concurrency value, in axis order. -/
theorem concurrency_sweep_leaf_list {child : Nat → SweepResult}
    {mk : Nat → ModelRunConfig} (hchild : ∀ i, (child i).1 = [[]]) (cs : List Nat) :
    ∀ idx, (concurrency_sweep child mk cs idx).1 = cs.map (fun c => [mk c]) := by
  induction cs with
  | nil => intro idx; simp [concurrency_sweep]
  | cons c cs ih => intro idx; simp [concurrency_sweep, hchild, ih]

/-- Over a leaf child and strictly increasing feedback, a batch-size walk never backs
off and yields exactly the full batch-size × concurrency product, in axis order. -/
theorem batch_size_walk_no_backoff_list {thru : Nat → Nat} {child : Nat → SweepResult}
    {mk : Nat → Nat → ModelRunConfig} {concs : List Nat}
    (hmono : StrictMono thru) (hc : child_inv thru child)
    (hchild : ∀ i, (child i).1 = [[]]) (hconcs : concs ≠ []) (bss : List Nat) :
    ∀ (best : Option Nat) (idx : Nat),
      (best = none ∨ ∃ a, a < idx ∧ best = some (range_max thru a idx)) →
      (batch_size_walk child mk concs bss best idx).1 =
        (bss.map (fun b => concs.map (fun c => [mk b c]))).flatten := by
  induction bss with
  | nil => intro best idx _; simp [batch_size_walk]
  | cons b bs ih =>
    intro best idx hbest
    simp only [batch_size_walk]
    obtain ⟨h1, h2, h3⟩ := concurrency_sweep_inv hc concs idx
    rw [should_stop_false_of_strictMono hmono hc hconcs hbest]
    simp only [Bool.false_eq_true, if_false]
    rw [concurrency_sweep_leaf_list hchild concs idx,
      ih (some ((concurrency_sweep child (mk b) concs idx).2.2))
        ((concurrency_sweep child (mk b) concs idx).2.1)
        (Or.inr ⟨idx, h3 hconcs, by rw [h2]⟩)]
    simp

/-- Over a leaf child and strictly increasing feedback, an instance-count walk yields
exactly the full instance_count × batch_size × concurrency product, in axis order. -/
theorem instance_count_walk_no_backoff_list {thru : Nat → Nat} {child : Nat → SweepResult}
    {mk : Nat → Nat → Nat → ModelRunConfig} {concs bss : List Nat}
    (hmono : StrictMono thru) (hc : child_inv thru child)
    (hchild : ∀ i, (child i).1 = [[]]) (hconcs : concs ≠ []) (ics : List Nat) :
    ∀ idx, (instance_count_walk child mk concs bss ics idx).1 =
      (ics.map (fun ic =>
        (bss.map (fun b => concs.map (fun c => [mk ic b c]))).flatten)).flatten := by
  induction ics with
  | nil => intro idx; simp [instance_count_walk]
  | cons ic t ih =>
    intro idx
    simp only [instance_count_walk]
    rw [batch_size_walk_no_backoff_list hmono hc hchild hconcs bss none idx (Or.inl rfl),
      ih]
    simp

/-- With strictly increasing (never-backoff) feedback, a single-model session is the
default pass (default model-config, one config per concurrency value) followed by the
full sweep (every instance_count × batch_size combination, each swept over the whole
concurrency axis). -/
theorem generate_single_model_list (thru : Nat → Nat) (hmono : StrictMono thru)
    (m : ModelSearchSpec) (hconc : m.concurrencies ≠ []) :
    generate_run_configs thru [m] =
      m.concurrencies.map (fun c =>
        [(⟨true, m.default_instance_count, m.default_batch_size, c⟩ : ModelRunConfig)]) ++
      (m.instance_counts.map (fun ic =>
        (m.batch_sizes.map (fun b => m.concurrencies.map (fun c =>
          [(⟨false, ic, b, c⟩ : ModelRunConfig)]))).flatten)).flatten := by
  rw [generate_run_configs]
  congr 1
  · simp only [default_sweep]
    exact concurrency_sweep_leaf_list (fun i => rfl) m.concurrencies 0
  · simp only [full_sweep]
    exact instance_count_walk_no_backoff_list hmono (full_sweep_inv thru [] (by simp))
      (fun i => rfl) hconc m.instance_counts _

theorem flatten_flatten {β : Type} :
    ∀ l : List (List (List β)), l.flatten.flatten = (l.map List.flatten).flatten := by
  intro l
  induction l with
  | nil => rfl
  | cons a t ih => simp [List.flatten_append, ih]

/-- Inserting a positive number of copies of a fresh element into a list (via list
union) prepends it once. -/
theorem replicate_union_of_not_mem {β : Type} [DecidableEq β] {a : β} {L : List β}
    (h : a ∉ L) : ∀ k : Nat, List.replicate (k + 1) a ∪ L = a :: L := by
  intro k
  induction k with
  | zero =>
    simp only [List.replicate_succ, List.replicate_zero, List.cons_union, List.nil_union]
    exact List.insert_of_not_mem h
  | succ n ih =>
    rw [List.replicate_succ, List.cons_union, ih]
    exact List.insert_of_mem (List.mem_cons_self a L)

/-- Deduplicating a list of duplicate-free values each repeated a positive number of
times recovers the values, in order. -/
theorem dedup_flatten_replicate {β : Type} [DecidableEq β] (k : Nat) :
    ∀ l : List β, l.Nodup →
      ((l.map (fun a => List.replicate (k + 1) a)).flatten).dedup = l := by
  intro l
  induction l with
  | nil => intro _; simp
  | cons a t ih =>
    intro hnd
    rw [List.nodup_cons] at hnd
    rw [List.map_cons, List.flatten_cons, List.dedup_append, ih hnd.2]
    exact replicate_union_of_not_mem hnd.1 k

/-- Duplicate-free instance-count and batch-size axes give duplicate-free generated
model-config combinations. -/
theorem pairs_flatten_nodup (bss : List Nat) (hbss : bss.Nodup) :
    ∀ ics : List Nat, ics.Nodup →
      ((ics.map (fun ic => bss.map
        (fun bs => ((false, ic, bs) : Bool × Nat × Nat)))).flatten).Nodup := by
  intro ics
  induction ics with
  | nil => intro _; simp
  | cons ic t ih =>
    intro hnd
    rw [List.nodup_cons] at hnd
    rw [List.map_cons, List.flatten_cons]
    refine List.Nodup.append (hbss.map ?_) (ih hnd.2) ?_
    · intro b b' hbb
      exact congrArg (fun p => p.2.2) hbb
    · intro x hx1 hx2
      rcases List.mem_map.1 hx1 with ⟨b, _, rfl⟩
      rcases List.mem_flatten.1 hx2 with ⟨L, hL, hxL⟩
      rcases List.mem_map.1 hL with ⟨ic', hic', rfl⟩
      rcases List.mem_map.1 hxL with ⟨b', _, heq⟩
      have : ic' = ic := congrArg (fun p => p.2.1) heq
      exact hnd.1 (this ▸ hic')

/-- The model-config axis (default entry plus every generated combination) is
duplicate-free when the instance-count and batch-size axes are: the synthetic default
entry differs from every combination. -/
theorem model_config_axis_nodup (m : ModelSearchSpec)
    (hics : m.instance_counts.Nodup) (hbss : m.batch_sizes.Nodup) :
    (model_config_axis m).Nodup := by
  unfold model_config_axis
  rw [List.nodup_cons]
  constructor
  · intro hmem
    unfold model_config_combinations at hmem
    rcases List.mem_flatten.1 hmem with ⟨L, hL, hxL⟩
    rcases List.mem_map.1 hL with ⟨ic, _, rfl⟩
    rcases List.mem_map.1 hxL with ⟨bs, _, heq⟩
    have : false = true := congrArg (fun p => p.1) heq
    simp at this
  · unfold model_config_combinations
    exact pairs_flatten_nodup m.batch_sizes hbss m.instance_counts hics

theorem pairs_flatten_length {β γ δ : Type} (bss : List γ) (f : β → γ → δ) :
    ∀ ics : List β,
      ((ics.map (fun ic => bss.map (fun b => f ic b))).flatten).length =
        ics.length * bss.length := by
  intro ics
  induction ics with
  | nil => simp
  | cons ic t ih =>
    simp only [List.map_cons, List.flatten_cons, List.length_append, List.length_map,
      List.length_cons, ih]
    ring

/-- C7: for every model — any non-empty concurrency axis, any duplicate-free
instance-count and batch-size axes — and any never-backoff feedback, the model-config
axis walked by the model's complete per-model sequence always contains one extra
synthetic entry equal to the model's default model-config in addition to every
combination of instance_count and batch_size (parameter-set variants folded into those
axes): the session's model-config trace is the axis (default entry first) with each
entry held for one full concurrency sweep, its distinct model-configs are exactly the
default entry followed by every combination, and their number is
`instance_count_count * batch_size_count + 1` rather than a pure product. -/
theorem model_config_axis_includes_default_entry (thru : Nat → Nat)
    (hmono : StrictMono thru) (m : ModelSearchSpec) (hconc : m.concurrencies ≠ [])
    (hics : m.instance_counts.Nodup) (hbss : m.batch_sizes.Nodup) :
    (generate_run_configs thru [m]).map (fun rc => rc.map model_config_of) =
      ((model_config_axis m).map
        (fun mc => List.replicate m.concurrencies.length [mc])).flatten ∧
    ((generate_run_configs thru [m]).map (fun rc => rc.map model_config_of)).dedup =
      (model_config_axis m).map (fun mc => [mc]) ∧
    ((generate_run_configs thru [m]).map
        (fun rc => rc.map model_config_of)).dedup.length =
      m.instance_counts.length * m.batch_sizes.length + 1 := by
  obtain ⟨k, hk⟩ : ∃ k, m.concurrencies.length = k + 1 := by
    cases hcl : m.concurrencies with
    | nil => exact absurd hcl hconc
    | cons c cs => exact ⟨cs.length, rfl⟩
  have htrace : (generate_run_configs thru [m]).map (fun rc => rc.map model_config_of) =
      (((model_config_axis m).map (fun mc => [mc])).map
        (fun x => List.replicate m.concurrencies.length x)).flatten := by
    rw [generate_single_model_list thru hmono m hconc]
    simp only [List.map_append, List.map_map, List.map_flatten, flatten_flatten,
      model_config_axis, model_config_combinations, model_config_of, List.map_cons,
      List.map_nil, List.flatten_cons, Function.comp_def, List.map_const']
  have haxnd : ((model_config_axis m).map (fun mc => [mc])).Nodup :=
    (model_config_axis_nodup m hics hbss).map
      (fun a b hab => (List.cons_eq_cons.1 hab).1)
  have hded : ((generate_run_configs thru [m]).map
      (fun rc => rc.map model_config_of)).dedup =
      (model_config_axis m).map (fun mc => [mc]) := by
    rw [htrace, hk]
    exact dedup_flatten_replicate k ((model_config_axis m).map (fun mc => [mc])) haxnd
  refine ⟨by rw [htrace, List.map_map]; rfl, hded, ?_⟩
  rw [hded, List.length_map]
  unfold model_config_axis model_config_combinations
  rw [List.length_cons, pairs_flatten_length m.batch_sizes
    (fun ic bs => ((false, ic, bs) : Bool × Nat × Nat)) m.instance_counts]

/-- Witness for C7: at the concrete auto-search spec with bounds 2/2/2 the distinct
model-configs of the session are the default entry plus the four combinations,
`2 * 2 + 1 = 5` in all. -/
theorem model_config_axis_includes_default_entry_witness :
    ((generate_run_configs thru_id [auto_spec 2 2 2]).map
        (fun rc => rc.map model_config_of)).dedup =
      (model_config_axis (auto_spec 2 2 2)).map (fun mc => [mc]) ∧
    ((generate_run_configs thru_id [auto_spec 2 2 2]).map
        (fun rc => rc.map model_config_of)).dedup.length =
      (auto_spec 2 2 2).instance_counts.length *
        (auto_spec 2 2 2).batch_sizes.length + 1 ∧
    (auto_spec 2 2 2).instance_counts.length *
        (auto_spec 2 2 2).batch_sizes.length + 1 = 2 * 2 + 1 := by
  refine ⟨?_, ?_, by decide⟩
  · exact (model_config_axis_includes_default_entry thru_id (fun a b h => h)
      (auto_spec 2 2 2) (by decide) (by decide) (by decide)).2.1
  · exact (model_config_axis_includes_default_entry thru_id (fun a b h => h)
      (auto_spec 2 2 2) (by decide) (by decide) (by decide)).2.2

end ModelAnalyzer

namespace L0ConfigSearch

/-- C10: `get_all_configurations()` deterministically returns exactly the list built
by `_get_sweep_configs` — 8 sweep-configuration dictionaries in construction order —
and every one carries the four expected-count keys with
`total_param_remote ≤ total_param` and `total_models_remote ≤ total_models`. -/
theorem get_all_configurations_exact :
    get_all_configurations = _get_sweep_configs ∧
    get_all_configurations.length = 8 ∧
    get_all_configurations.all
      (fun c => decide (c.total_param_remote ≤ c.total_param) &&
        decide (c.total_models_remote ≤ c.total_models)) = true := by
  refine ⟨rfl, by decide, by decide⟩

end L0ConfigSearch
